import Mathlib

/-!
Shallow embedding of the HTTP request logging middleware in
`api/src/poem_backend/log.rs` (function `middleware_log` and struct
`HttpRequestLog`), together with proofs of the specified properties.

Wall-clock time is modelled by an explicit clock (nanoseconds, as `Nat`):
each phase of one invocation (metadata extraction, the downstream handler
call, outcome inspection, emission) consumes an arbitrary environment-chosen
duration, and `Instant::now` reads the clock at the program point where the
source calls it.
-/

namespace AptosLogMW

/-- A network socket address, modelling `std::net::SocketAddr` abstractly as
an IP rendered as text plus a port. -/
structure SocketAddr where
  ip : String
  port : Nat
deriving DecidableEq

/-- The transport-level peer address of a request, modelling
`poem::web::RemoteAddr`: it is either an IP socket address, a unix-domain
socket path, or a custom transport address. -/
inductive RemoteAddr where
  | socket : SocketAddr → RemoteAddr
  | unix : String → RemoteAddr
  | custom : String → String → RemoteAddr
deriving DecidableEq

/-- Model of `RemoteAddr::as_socket_addr` from poem: only the IP socket
address variant yields a value. -/
def RemoteAddr.asSocketAddr : RemoteAddr → Option SocketAddr
  | RemoteAddr.socket a => some a
  | RemoteAddr.unix _ => none
  | RemoteAddr.custom _ _ => none

/-- Model of `http::HeaderValue::to_str` (external crate): a header value is
a byte list; decoding succeeds exactly when every byte is visible ASCII, and
then yields the corresponding text. -/
def headerToStr (v : List Nat) : Option String :=
  if v.all (fun b => decide (32 ≤ b) && decide (b ≤ 126)) then
    some (String.mk (v.map (fun b => Char.ofNat b)))
  else none

/-- A request URI, exposing the path component separately from the query. -/
structure Uri where
  path : String
  query : Option String
deriving DecidableEq

/-- An inbound request as consumed by the middleware: peer address, method
token, URI, and headers (a name-indexed multimap, names stored lowercase as
in `http::HeaderMap`). -/
structure Request where
  remoteAddr : RemoteAddr
  method : String
  uri : Uri
  headers : List (String × List Nat)
deriving DecidableEq

/-- Model of `HeaderMap::get`: the first header value with the given name,
if any. -/
def Request.getHeader (r : Request) (name : String) : Option (List Nat) :=
  (r.headers.find? (fun p => p.fst == name)).map Prod.snd

/-- A duration, in nanoseconds, modelling `std::time::Duration`. -/
structure Duration where
  nanos : Nat
deriving DecidableEq

/-- Model of `Duration::as_secs_f64`: the duration as (exact rational)
seconds. -/
def Duration.secsQ (d : Duration) : ℚ := (d.nanos : ℚ) / 1000000000

/-- A response as far as the middleware observes it: status code, headers,
body. -/
structure Response where
  status : Nat
  headers : List (String × List Nat)
  body : List Nat
deriving DecidableEq

/-- The structured log record, translated field by field from the Rust
struct `HttpRequestLog`. -/
structure HttpRequestLog where
  remote_addr : Option SocketAddr
  method : String
  path : String
  status : Nat
  referer : Option String
  user_agent : Option String
  elapsed : Duration
  forwarded : Option String
deriving DecidableEq

/-- Modelled from the spec: the state of the `sample!` rate limiter of the
aptos_logger crate (crates/aptos-logger, not present under src/) — a single
process-wide record of the timestamp of the last emission that passed the
filter, absent until the first pass. -/
structure SamplerState where
  lastPass : Option Nat
deriving DecidableEq

/-- Modelled from the spec: one decision of the fixed-interval rate limiter
(`sample!` with `SampleRate::Duration`): an event passes iff nothing has
passed yet, or at least `interval` has elapsed since the last pass; a pass
updates the stored timestamp, a drop leaves the state unchanged. -/
def tryPass (interval : Nat) (st : SamplerState) (now : Nat) :
    Bool × SamplerState :=
  match st.lastPass with
  | none => (true, ⟨some now⟩)
  | some t => if t + interval ≤ now then (true, ⟨some now⟩) else (false, st)

/-- One second, in nanoseconds: the sampling interval
`Duration::from_secs(1)` used at the `sample!` call site. -/
def oneSecondNanos : Nat := 1000000000

/-- Runs the sampler over a list of event timestamps, returning each
timestamp paired with its pass/drop decision, and the final state. -/
def samplerRun (interval : Nat) (st : SamplerState) :
    List Nat → List (Nat × Bool) × SamplerState
  | [] => ([], st)
  | t :: ts =>
    let pb := tryPass interval st t
    let rest := samplerRun interval pb.snd ts
    ((t, pb.fst) :: rest.fst, rest.snd)

/-- The timestamps of the events that passed the sampler. -/
def passTimes (l : List (Nat × Bool)) : List Nat :=
  (l.filter (fun p => p.snd)).map Prod.fst

/-- Severity of a log emission: the middleware uses `error!` and `debug!`. -/
inductive LogLevel where
  | error | debug
deriving DecidableEq

/-- One structured log emission handed to the log sink. -/
structure LogEmission where
  level : LogLevel
  record : HttpRequestLog
deriving DecidableEq

/-- One histogram observation handed to the metrics sink
(`RESPONSE_STATUS.with_label_values(&[status]).observe(secs)`). -/
structure MetricObs where
  label : String
  seconds : ℚ
deriving DecidableEq

/-- Fields of the log record, used to trace mutations. -/
inductive FieldId where
  | remoteAddrF | methodF | pathF | statusF | refererF | userAgentF
  | elapsedF | forwardedF
deriving DecidableEq

/-- Phase of one invocation in which a field write happens: either the
struct-literal construction before the handler call, or the two assignments
after the handler returns. -/
inductive Phase where
  | construction | postHandler
deriving DecidableEq

/-- Events of one middleware invocation, in program order. -/
inductive TraceEvent where
  | write : Phase → FieldId → TraceEvent
  | handlerReturn : TraceEvent
  | logEmit : TraceEvent
  | metricEmit : TraceEvent
deriving DecidableEq

/-- The field writes performed by the struct-literal construction of the
log record, in source order. -/
def constructionWrites : List TraceEvent :=
  [TraceEvent.write Phase.construction FieldId.remoteAddrF,
   TraceEvent.write Phase.construction FieldId.methodF,
   TraceEvent.write Phase.construction FieldId.pathF,
   TraceEvent.write Phase.construction FieldId.statusF,
   TraceEvent.write Phase.construction FieldId.refererF,
   TraceEvent.write Phase.construction FieldId.userAgentF,
   TraceEvent.write Phase.construction FieldId.elapsedF,
   TraceEvent.write Phase.construction FieldId.forwardedF]

/-- The wall-clock nanoseconds each phase of one invocation consumes;
arbitrary, chosen by the environment. -/
structure TimeModel where
  extractTime : Nat
  handlerTime : Nat
  inspectTime : Nat
  emitTime : Nat
deriving DecidableEq

/-- The construction of the `HttpRequestLog` struct literal at the top of
`middleware_log`, translated field by field from the source. -/
def extractRecord (request : Request) : HttpRequestLog :=
  { remote_addr := request.remoteAddr.asSocketAddr
    method := request.method
    path := request.uri.path
    status := 0
    referer := (request.getHeader "referer").bind headerToStr
    user_agent := (request.getHeader "user-agent").bind headerToStr
    elapsed := ⟨0⟩
    forwarded := (request.getHeader "forwarded").bind headerToStr }

/-- The status code the source derives from the handler outcome: the
response status on success, `StatusCode::INTERNAL_SERVER_ERROR` (500) on
failure. -/
def finalStatus {ε : Type} : Except ε Response → Nat
  | Except.ok response => response.status
  | Except.error _ => 500

/-- Everything one middleware invocation produces: the value returned to
the caller, the log record before and after the post-handler assignments,
the emissions handed to the two sinks, the updated sampler state, the event
trace, and the clock at return. -/
structure MiddlewareResult (ε : Type) where
  out : Except ε Response
  initialRecord : HttpRequestLog
  record : HttpRequestLog
  logs : List LogEmission
  metrics : List MetricObs
  sampler : SamplerState
  trace : List TraceEvent
  finalClock : Nat

/-- Translation of `middleware_log` from the source, statement by statement.
`t0` is the clock when the function is entered (`let start =
Instant::now()` is the first statement); the record construction, the
handler call and the outcome inspection advance the clock by the durations
of `tm`; `start.elapsed()` reads the clock after the inspection; the two
emissions follow; the handler itself is a pure function of the request
together with the environment-chosen duration `tm.handlerTime`. -/
def middleware_log {ε : Type} (tm : TimeModel) (t0 : Nat)
    (handler : Request → Except ε Response) (sampler : SamplerState)
    (request : Request) : MiddlewareResult ε :=
  let start := t0
  let log0 := extractRecord request
  let t1 := t0 + tm.extractTime
  let result := handler request
  let t2 := t1 + tm.handlerTime
  let outStatus : Except ε Response × Nat :=
    match result with
    | Except.ok response => (Except.ok response, response.status)
    | Except.error err => (Except.error err, 500)
  let t3 := t2 + tm.inspectTime
  let elapsed : Duration := ⟨t3 - start⟩
  let log : HttpRequestLog :=
    { log0 with status := outStatus.snd, elapsed := elapsed }
  let logSampler : List LogEmission × SamplerState :=
    if 500 ≤ outStatus.snd then
      let ps := tryPass oneSecondNanos sampler t3
      (if ps.fst then [⟨LogLevel.error, log⟩] else [], ps.snd)
    else ([⟨LogLevel.debug, log⟩], sampler)
  { out := outStatus.fst
    initialRecord := log0
    record := log
    logs := logSampler.fst
    metrics := [⟨Nat.repr outStatus.snd, elapsed.secsQ⟩]
    sampler := logSampler.snd
    trace :=
      constructionWrites
        ++ ([TraceEvent.handlerReturn,
             TraceEvent.write Phase.postHandler FieldId.statusF,
             TraceEvent.write Phase.postHandler FieldId.elapsedF]
            ++ (logSampler.fst.map (fun _ => TraceEvent.logEmit)
                ++ [TraceEvent.metricEmit]))
    finalClock := t3 + tm.emitTime }

/-- A sample request arriving over an IP socket. -/
def sampleSocketRequest : Request :=
  { remoteAddr := RemoteAddr.socket ⟨"127.0.0.1", 8080⟩
    method := "GET"
    uri := ⟨"/v1/info", none⟩
    headers := [("referer", [104, 105])] }

/-- A sample request arriving over a unix-domain socket. -/
def sampleUnixRequest : Request :=
  { remoteAddr := RemoteAddr.unix "/tmp/api.sock"
    method := "GET"
    uri := ⟨"/v1/info", none⟩
    headers := [] }

/-- A sample handler that succeeds with a fixed 200 response. -/
def sampleOkHandler : Request → Except String Response :=
  fun _ => Except.ok ⟨200, [("content-type", [97])], [123]⟩

/-- A sample handler that fails. -/
def sampleErrHandler : Request → Except String Response :=
  fun _ => Except.error "boom"

/-- A sample time model: extraction 1ns, handler 7ns, inspection 1ns,
emission 5ns. -/
def sampleTm : TimeModel := ⟨1, 7, 1, 5⟩

/-- C1, as stated, is false: the claim says the recorded elapsed duration
covers exactly the downstream handler invocation interval, but with
extraction taking 1ns, the handler 7ns and inspection 1ns the record holds
9ns, not the handler's 7ns, because `Instant::now` is called at function
entry, before the metadata extraction. -/
theorem middleware_elapsed_not_handler_only :
    ¬ ((middleware_log sampleTm 0 sampleOkHandler ⟨none⟩
          sampleSocketRequest).record.elapsed.nanos = sampleTm.handlerTime) := by
  decide

/-- C1 (amended): the elapsed duration written into the log record spans
from function entry to just after outcome inspection: it is the sum of the
metadata-extraction, handler-invocation and outcome-inspection durations,
and excludes the emission step. -/
theorem middleware_elapsed_spans_entry_to_inspection {ε : Type}
    (tm : TimeModel) (t0 : Nat) (handler : Request → Except ε Response)
    (st : SamplerState) (req : Request) :
    (middleware_log tm t0 handler st req).record.elapsed.nanos
      = tm.extractTime + tm.handlerTime + tm.inspectTime := by
  simp [middleware_log]
  omega

/-- C9: metadata extraction is a pure function of the request alone — the
initial record produced by a middleware invocation does not depend on the
time model, the clock, the handler or the sampler state, and extracting
twice from the same request yields identical records. -/
theorem extraction_pure {ε1 ε2 : Type} (tm1 tm2 : TimeModel) (c1 c2 : Nat)
    (h1 : Request → Except ε1 Response) (h2 : Request → Except ε2 Response)
    (s1 s2 : SamplerState) (req : Request) :
    (middleware_log tm1 c1 h1 s1 req).initialRecord
        = (middleware_log tm2 c2 h2 s2 req).initialRecord
      ∧ extractRecord req = extractRecord req :=
  ⟨rfl, rfl⟩

/-- C10: when the peer address is not an IP socket address (unix-domain or
custom transport), the remote_addr field of the record is absent; and
whenever the field is present, the peer address was that socket address. -/
theorem remote_addr_only_socket {ε : Type} (tm : TimeModel) (t0 : Nat)
    (handler : Request → Except ε Response) (st : SamplerState)
    (req : Request) (h : ∀ a, req.remoteAddr ≠ RemoteAddr.socket a) :
    (middleware_log tm t0 handler st req).record.remote_addr = none := by
  simp only [middleware_log, extractRecord]
  cases hr : req.remoteAddr with
  | socket a => exact absurd hr (h a)
  | unix p => simp [RemoteAddr.asSocketAddr]
  | custom s a => simp [RemoteAddr.asSocketAddr]

/-- Witness for C10 at a unix-domain peer address. -/
theorem remote_addr_only_socket_witness :
    (middleware_log sampleTm 0 sampleOkHandler ⟨none⟩
        sampleUnixRequest).record.remote_addr = none :=
  remote_addr_only_socket sampleTm 0 sampleOkHandler ⟨none⟩ sampleUnixRequest
    (by intro a hc; simp [sampleUnixRequest] at hc)

/-- C3: when the handler fails, the record and the metrics label carry the
fallback status 500, and the original failure value is returned to the
caller unaltered. -/
theorem middleware_failure_fallback {ε : Type} (tm : TimeModel) (t0 : Nat)
    (handler : Request → Except ε Response) (st : SamplerState)
    (req : Request) (e : ε) (h : handler req = Except.error e) :
    (middleware_log tm t0 handler st req).out = Except.error e
    ∧ (middleware_log tm t0 handler st req).record.status = 500
    ∧ (middleware_log tm t0 handler st req).metrics
        = [⟨Nat.repr 500,
            (middleware_log tm t0 handler st req).record.elapsed.secsQ⟩] := by
  refine ⟨?_, ?_, ?_⟩ <;> simp [middleware_log, h]

/-- Witness for C3 at a concrete failing handler. -/
theorem middleware_failure_fallback_witness :
    (middleware_log sampleTm 0 sampleErrHandler ⟨none⟩
        sampleSocketRequest).out = Except.error "boom"
    ∧ (middleware_log sampleTm 0 sampleErrHandler ⟨none⟩
        sampleSocketRequest).record.status = 500
    ∧ (middleware_log sampleTm 0 sampleErrHandler ⟨none⟩
        sampleSocketRequest).metrics
        = [⟨Nat.repr 500,
            (middleware_log sampleTm 0 sampleErrHandler ⟨none⟩
              sampleSocketRequest).record.elapsed.secsQ⟩] :=
  middleware_failure_fallback sampleTm 0 sampleErrHandler ⟨none⟩
    sampleSocketRequest "boom" rfl

/-- C4: every invocation records exactly one metrics observation: the
elapsed duration as seconds, labeled by the final status code rendered in
decimal; this holds for success and failure alike and does not depend on
the sampling outcome. -/
theorem middleware_metrics_exactly_once {ε : Type} (tm : TimeModel)
    (t0 : Nat) (handler : Request → Except ε Response) (st : SamplerState)
    (req : Request) :
    (middleware_log tm t0 handler st req).metrics
        = [⟨Nat.repr ((middleware_log tm t0 handler st req).record.status),
            (middleware_log tm t0 handler st req).record.elapsed.secsQ⟩]
      ∧ (middleware_log tm t0 handler st req).metrics.length = 1
      ∧ (middleware_log tm t0 handler st req).record.status
          = finalStatus (handler req) := by
  refine ⟨by simp [middleware_log], by simp [middleware_log], ?_⟩
  cases hh : handler req with
  | ok response => simp [middleware_log, finalStatus, hh]
  | error e => simp [middleware_log, finalStatus, hh]

/-- C7: when the handler succeeds, the middleware returns exactly the
handler's response — same status code, headers and body. -/
theorem middleware_success_passthrough {ε : Type} (tm : TimeModel)
    (t0 : Nat) (handler : Request → Except ε Response) (st : SamplerState)
    (req : Request) (resp : Response) (h : handler req = Except.ok resp) :
    (middleware_log tm t0 handler st req).out = Except.ok resp
    ∧ ∀ r : Response, (middleware_log tm t0 handler st req).out = Except.ok r →
        r.status = resp.status ∧ r.headers = resp.headers ∧ r.body = resp.body := by
  refine ⟨by simp [middleware_log, h], ?_⟩
  intro r hr
  have hrr : resp = r := by simpa [middleware_log, h] using hr
  cases hrr
  exact ⟨rfl, rfl, rfl⟩

/-- Witness for C7 at a concrete succeeding handler. -/
theorem middleware_success_passthrough_witness :
    (middleware_log sampleTm 0 sampleOkHandler ⟨none⟩
        sampleSocketRequest).out
        = Except.ok ⟨200, [("content-type", [97])], [123]⟩
    ∧ ∀ r : Response, (middleware_log sampleTm 0 sampleOkHandler ⟨none⟩
        sampleSocketRequest).out = Except.ok r →
        r.status = (200 : Nat) ∧ r.headers = [("content-type", [97])]
          ∧ r.body = [123] :=
  middleware_success_passthrough sampleTm 0 sampleOkHandler ⟨none⟩
    sampleSocketRequest ⟨200, [("content-type", [97])], [123]⟩ rfl

/-- C2: the final status decides severity: a status of at least 500 is
emitted at error severity through the shared 1-second sampler, whose state
is updated by the sampler decision; any status below 500 is emitted at
debug severity unconditionally, leaving the sampler untouched. -/
theorem middleware_severity_classification {ε : Type} (tm : TimeModel)
    (t0 : Nat) (handler : Request → Except ε Response) (st : SamplerState)
    (req : Request) :
    (finalStatus (handler req) < 500 →
        (middleware_log tm t0 handler st req).logs
            = [⟨LogLevel.debug, (middleware_log tm t0 handler st req).record⟩]
          ∧ (middleware_log tm t0 handler st req).sampler = st)
    ∧ (500 ≤ finalStatus (handler req) →
        (middleware_log tm t0 handler st req).sampler
            = (tryPass oneSecondNanos st
                (t0 + tm.extractTime + tm.handlerTime + tm.inspectTime)).snd
          ∧ (middleware_log tm t0 handler st req).logs
              = (if (tryPass oneSecondNanos st
                      (t0 + tm.extractTime + tm.handlerTime + tm.inspectTime)).fst
                 then [⟨LogLevel.error,
                        (middleware_log tm t0 handler st req).record⟩]
                 else [])) := by
  constructor
  · intro hs
    cases hh : handler req with
    | ok response =>
      rw [hh] at hs
      simp only [finalStatus] at hs
      have hns : ¬ 500 ≤ response.status := by omega
      constructor <;> simp [middleware_log, hh, hns]
    | error e =>
      rw [hh] at hs
      simp only [finalStatus] at hs
      omega
  · intro hs
    cases hh : handler req with
    | ok response =>
      rw [hh] at hs
      simp only [finalStatus] at hs
      constructor <;> simp [middleware_log, hh, hs]
    | error e =>
      constructor <;> simp [middleware_log, hh]

/-- Witness for C2 on the routine branch: a 200 response is logged at debug
severity and the sampler state is untouched. -/
theorem middleware_severity_classification_witness :
    (middleware_log sampleTm 0 sampleOkHandler ⟨none⟩
          sampleSocketRequest).logs
        = [⟨LogLevel.debug,
            (middleware_log sampleTm 0 sampleOkHandler ⟨none⟩
              sampleSocketRequest).record⟩]
      ∧ (middleware_log sampleTm 0 sampleOkHandler ⟨none⟩
          sampleSocketRequest).sampler = ⟨none⟩ :=
  (middleware_severity_classification sampleTm 0 sampleOkHandler ⟨none⟩
      sampleSocketRequest).1 (by decide)

/-- Helper: binding an optional header value through text decoding yields a
value exactly when the header is present and decodable. -/
theorem bind_headerToStr_some (o : Option (List Nat)) (s : String) :
    o.bind headerToStr = some s
      ↔ ∃ v, o = some v ∧ headerToStr v = some s := by
  cases o <;> simp

/-- Helper: binding an optional header value through text decoding yields
nothing exactly when the header is absent or not decodable. -/
theorem bind_headerToStr_none (o : Option (List Nat)) :
    o.bind headerToStr = none
      ↔ o = none ∨ ∃ v, o = some v ∧ headerToStr v = none := by
  cases o <;> simp

/-- C6: each of the optional fields referer, user_agent and forwarded is
present with the header's text exactly when the header exists and its bytes
decode as text, and absent when the header is missing or not decodable;
decoding failure only results in an absent field. -/
theorem middleware_optional_header_fields {ε : Type} (tm : TimeModel)
    (t0 : Nat) (handler : Request → Except ε Response) (st : SamplerState)
    (req : Request) :
    (∀ s, (middleware_log tm t0 handler st req).record.referer = some s
        ↔ ∃ v, req.getHeader "referer" = some v ∧ headerToStr v = some s)
    ∧ ((middleware_log tm t0 handler st req).record.referer = none
        ↔ req.getHeader "referer" = none
          ∨ ∃ v, req.getHeader "referer" = some v ∧ headerToStr v = none)
    ∧ (∀ s, (middleware_log tm t0 handler st req).record.user_agent = some s
        ↔ ∃ v, req.getHeader "user-agent" = some v ∧ headerToStr v = some s)
    ∧ ((middleware_log tm t0 handler st req).record.user_agent = none
        ↔ req.getHeader "user-agent" = none
          ∨ ∃ v, req.getHeader "user-agent" = some v ∧ headerToStr v = none)
    ∧ (∀ s, (middleware_log tm t0 handler st req).record.forwarded = some s
        ↔ ∃ v, req.getHeader "forwarded" = some v ∧ headerToStr v = some s)
    ∧ ((middleware_log tm t0 handler st req).record.forwarded = none
        ↔ req.getHeader "forwarded" = none
          ∨ ∃ v, req.getHeader "forwarded" = some v ∧ headerToStr v = none) := by
  have h1 : (middleware_log tm t0 handler st req).record.referer
      = (req.getHeader "referer").bind headerToStr := by
    simp [middleware_log, extractRecord]
  have h2 : (middleware_log tm t0 handler st req).record.user_agent
      = (req.getHeader "user-agent").bind headerToStr := by
    simp [middleware_log, extractRecord]
  have h3 : (middleware_log tm t0 handler st req).record.forwarded
      = (req.getHeader "forwarded").bind headerToStr := by
    simp [middleware_log, extractRecord]
  exact ⟨fun s => by rw [h1]; exact bind_headerToStr_some _ s,
         by rw [h1]; exact bind_headerToStr_none _,
         fun s => by rw [h2]; exact bind_headerToStr_some _ s,
         by rw [h2]; exact bind_headerToStr_none _,
         fun s => by rw [h3]; exact bind_headerToStr_some _ s,
         by rw [h3]; exact bind_headerToStr_none _⟩

/-- Helper: every pass of a sampler run started with a last pass recorded
at time t happens at least one interval after t. -/
theorem samplerRun_pass_lower (interval : Nat) :
    ∀ (ts : List Nat) (t : Nat),
      ∀ p ∈ passTimes (samplerRun interval ⟨some t⟩ ts).fst,
        t + interval ≤ p := by
  intro ts
  induction ts with
  | nil => intro t p hp; simp [samplerRun, passTimes] at hp
  | cons u ts ih =>
    intro t p hp
    by_cases hc : t + interval ≤ u
    · have hred : passTimes (samplerRun interval ⟨some t⟩ (u :: ts)).fst
          = u :: passTimes (samplerRun interval ⟨some u⟩ ts).fst := by
        simp [samplerRun, tryPass, hc, passTimes]
      rw [hred] at hp
      rcases List.mem_cons.mp hp with h | h
      · omega
      · have := ih u p h
        omega
    · have hred : passTimes (samplerRun interval ⟨some t⟩ (u :: ts)).fst
          = passTimes (samplerRun interval ⟨some t⟩ ts).fst := by
        simp [samplerRun, tryPass, hc, passTimes]
      rw [hred] at hp
      exact ih t p hp

/-- Helper: the passes of any sampler run are pairwise separated by at
least the interval. -/
theorem samplerRun_passes_pairwise (interval : Nat) :
    ∀ (ts : List Nat) (st : SamplerState),
      List.Pairwise (fun a b => a + interval ≤ b)
        (passTimes (samplerRun interval st ts).fst) := by
  intro ts
  induction ts with
  | nil => intro st; simp [samplerRun, passTimes]
  | cons u ts ih =>
    intro st
    rcases st with ⟨_ | t⟩
    · have hred : passTimes (samplerRun interval ⟨none⟩ (u :: ts)).fst
          = u :: passTimes (samplerRun interval ⟨some u⟩ ts).fst := by
        simp [samplerRun, tryPass, passTimes]
      rw [hred]
      exact List.pairwise_cons.mpr
        ⟨fun p hp => samplerRun_pass_lower interval ts u p hp, ih ⟨some u⟩⟩
    · by_cases hc : t + interval ≤ u
      · have hred : passTimes (samplerRun interval ⟨some t⟩ (u :: ts)).fst
            = u :: passTimes (samplerRun interval ⟨some u⟩ ts).fst := by
          simp [samplerRun, tryPass, hc, passTimes]
        rw [hred]
        exact List.pairwise_cons.mpr
          ⟨fun p hp => samplerRun_pass_lower interval ts u p hp, ih ⟨some u⟩⟩
      · have hred : passTimes (samplerRun interval ⟨some t⟩ (u :: ts)).fst
            = passTimes (samplerRun interval ⟨some t⟩ ts).fst := by
          simp [samplerRun, tryPass, hc, passTimes]
        rw [hred]
        exact ih ⟨some t⟩

/-- Helper: a list whose elements, in order, are separated by at least the
interval has at most one element in any half-open window of that length. -/
theorem pairwise_window_count (interval x : Nat) (l : List Nat)
    (h : List.Pairwise (fun a b => a + interval ≤ b) l) :
    (l.filter (fun p => decide (x ≤ p) && decide (p < x + interval))).length
      ≤ 1 := by
  induction l with
  | nil => simp
  | cons a l ih =>
    rcases List.pairwise_cons.mp h with ⟨hsep, htail⟩
    by_cases ha : x ≤ a ∧ a < x + interval
    · have hnone : l.filter
          (fun p => decide (x ≤ p) && decide (p < x + interval)) = [] := by
        rw [List.filter_eq_nil_iff]
        intro b hb
        have := hsep b hb
        simp only [Bool.and_eq_true, decide_eq_true_eq, not_and]
        intro hxb
        omega
      simp [List.filter_cons, ha.1, ha.2, hnone]
    · rcases Nat.lt_or_ge a x with h1 | h1
      · have hn : ¬ x ≤ a := by omega
        simp only [List.filter_cons, hn, decide_False, Bool.false_and,
          if_neg (by simp : ¬ (false = true))]
        exact ih htail
      · have hn : ¬ a < x + interval := fun hcon => ha ⟨h1, hcon⟩
        simp only [List.filter_cons, hn, decide_False, Bool.and_false,
          if_neg (by simp : ¬ (false = true))]
        exact ih htail

/-- C5: feeding any sequence of error-event timestamps to the shared
sampler, at most one emission passes per 1-second window; an event within
one second of the last pass is dropped with the state unchanged; an event
at least one second after the last pass always passes, as does the very
first event. -/
theorem sampler_rate_limit (ts : List Nat) (x : Nat) (st : SamplerState)
    (t now : Nat) :
    ((passTimes (samplerRun oneSecondNanos ⟨none⟩ ts).fst).filter
        (fun p => decide (x ≤ p) && decide (p < x + oneSecondNanos))).length ≤ 1
    ∧ (st.lastPass = some t → now < t + oneSecondNanos →
        tryPass oneSecondNanos st now = (false, st))
    ∧ (st.lastPass = some t → t + oneSecondNanos ≤ now →
        tryPass oneSecondNanos st now = (true, ⟨some now⟩))
    ∧ tryPass oneSecondNanos ⟨none⟩ now = (true, ⟨some now⟩) := by
  refine ⟨pairwise_window_count oneSecondNanos x _
      (samplerRun_passes_pairwise oneSecondNanos ts ⟨none⟩), ?_, ?_, rfl⟩
  · intro hl hlt
    rcases st with ⟨lp⟩
    cases hl
    have hn : ¬ (t + oneSecondNanos ≤ now) := by omega
    simp [tryPass, hn]
  · intro hl hge
    rcases st with ⟨lp⟩
    cases hl
    simp [tryPass, hge]

/-- Witness for C5: with a last pass recorded at time 5, an event at time 7
(within the 1-second interval) is dropped and the state is unchanged. -/
theorem sampler_rate_limit_witness :
    tryPass oneSecondNanos ⟨some 5⟩ 7 = (false, ⟨some 5⟩) :=
  (sampler_rate_limit [] 0 ⟨some 5⟩ 5 7).2.1 rfl (by decide)

/-- Helper: the event trace of one invocation is the construction writes,
then the handler return, then exactly the status and elapsed writes, then
the emissions. -/
theorem middleware_trace_shape {ε : Type} (tm : TimeModel) (t0 : Nat)
    (handler : Request → Except ε Response) (st : SamplerState)
    (req : Request) :
    (middleware_log tm t0 handler st req).trace
      = constructionWrites
          ++ ([TraceEvent.handlerReturn,
               TraceEvent.write Phase.postHandler FieldId.statusF,
               TraceEvent.write Phase.postHandler FieldId.elapsedF]
              ++ ((middleware_log tm t0 handler st req).logs.map
                    (fun _ => TraceEvent.logEmit)
                  ++ [TraceEvent.metricEmit])) := rfl

/-- Helper: a list of log-emission markers contains no write event. -/
theorem count_write_map_logEmit (l : List LogEmission) (ph : Phase)
    (f : FieldId) :
    (l.map (fun _ => TraceEvent.logEmit)).count (TraceEvent.write ph f)
      = 0 := by
  rw [List.count_eq_zero]
  intro hm
  rcases List.mem_map.mp hm with ⟨a, _, hc⟩
  exact TraceEvent.noConfusion hc

/-- C8: the record is constructed with the sentinel status 0 and zero
elapsed; the status and elapsed fields are each written exactly once more,
after the handler returns and before any emission; every other field is
written only during construction. -/
theorem record_write_once_discipline {ε : Type} (tm : TimeModel) (t0 : Nat)
    (handler : Request → Except ε Response) (st : SamplerState)
    (req : Request) :
    (middleware_log tm t0 handler st req).initialRecord.status = 0
    ∧ (middleware_log tm t0 handler st req).initialRecord.elapsed = ⟨0⟩
    ∧ (∀ e ∈ constructionWrites,
        ∃ f, e = TraceEvent.write Phase.construction f)
    ∧ (∃ post : List TraceEvent,
        (middleware_log tm t0 handler st req).trace
            = constructionWrites
                ++ ([TraceEvent.handlerReturn,
                     TraceEvent.write Phase.postHandler FieldId.statusF,
                     TraceEvent.write Phase.postHandler FieldId.elapsedF]
                    ++ post)
          ∧ ∀ e ∈ post, e = TraceEvent.logEmit ∨ e = TraceEvent.metricEmit)
    ∧ (middleware_log tm t0 handler st req).trace.count
        (TraceEvent.write Phase.postHandler FieldId.statusF) = 1
    ∧ (middleware_log tm t0 handler st req).trace.count
        (TraceEvent.write Phase.postHandler FieldId.elapsedF) = 1
    ∧ ∀ f, f ≠ FieldId.statusF → f ≠ FieldId.elapsedF →
        (middleware_log tm t0 handler st req).trace.count
          (TraceEvent.write Phase.postHandler f) = 0 := by
  have hcwf : ∀ f, constructionWrites.count
      (TraceEvent.write Phase.postHandler f) = 0 := by
    intro f
    rw [List.count_eq_zero]
    intro hm
    simp only [constructionWrites, List.mem_cons, List.not_mem_nil,
      or_false] at hm
    rcases hm with h|h|h|h|h|h|h|h <;> simp at h
  refine ⟨rfl, rfl, ?_, ?_, ?_, ?_, ?_⟩
  · intro e he
    simp only [constructionWrites, List.mem_cons, List.not_mem_nil,
      or_false] at he
    rcases he with rfl|rfl|rfl|rfl|rfl|rfl|rfl|rfl <;> exact ⟨_, rfl⟩
  · refine ⟨(middleware_log tm t0 handler st req).logs.map
        (fun _ => TraceEvent.logEmit) ++ [TraceEvent.metricEmit],
      middleware_trace_shape tm t0 handler st req, ?_⟩
    intro e he
    rcases List.mem_append.mp he with h | h
    · rcases List.mem_map.mp h with ⟨a, _, hc⟩
      exact Or.inl hc.symm
    · rcases List.mem_cons.mp h with h | h
      · exact Or.inr h
      · exact absurd h (List.not_mem_nil e)
  · rw [middleware_trace_shape tm t0 handler st req]
    rw [List.count_append, List.count_append, List.count_append]
    rw [hcwf, count_write_map_logEmit]
    decide
  · rw [middleware_trace_shape tm t0 handler st req]
    rw [List.count_append, List.count_append, List.count_append]
    rw [hcwf, count_write_map_logEmit]
    decide
  · intro f hf1 hf2
    rw [middleware_trace_shape tm t0 handler st req]
    rw [List.count_append, List.count_append, List.count_append]
    rw [hcwf, count_write_map_logEmit]
    simp [List.count_cons, hf1, hf2]

/-- Witness for C8 at a concrete invocation: the record is constructed with
the sentinel status 0 and exactly one post-handler status write occurs. -/
theorem record_write_once_discipline_witness :
    (middleware_log sampleTm 0 sampleErrHandler ⟨none⟩
        sampleUnixRequest).initialRecord.status = 0
    ∧ (middleware_log sampleTm 0 sampleErrHandler ⟨none⟩
        sampleUnixRequest).trace.count
        (TraceEvent.write Phase.postHandler FieldId.statusF) = 1 :=
  ⟨(record_write_once_discipline sampleTm 0 sampleErrHandler ⟨none⟩
      sampleUnixRequest).1,
   (record_write_once_discipline sampleTm 0 sampleErrHandler ⟨none⟩
      sampleUnixRequest).2.2.2.2.1⟩

end AptosLogMW
